import Mathlib

/-!
Shallow embedding of the real-time chat and notification subsystem of the
campus-marketplace backend (Django apps `chat` and `notifications`).

The definitions below are translated from:
  * `backend/apps/chat/views.py`     (ConversationViewSet: direct, messages, send, read, list)
  * `backend/apps/chat/consumers.py` (ChatConsumer: connect, receive_json, _mark_as_read, _create_msg)
  * `backend/apps/notifications/signals.py` (create_message_notification,
    create_offer_notification, create_sold_notification)
  * `backend/apps/notifications/models.py` (Notification)

Timestamps are modelled as `Nat` (only their ordering matters), database ids as
`Nat`, and the database as explicit lists inside a `State` record.  Django ORM
queries become `List.filter` / `List.find?`; `UPDATE ... WHERE` becomes a map
guarded by the same predicate as the filter.
-/

namespace Chat

/-- A chat message row (`chat.Message`): conversation FK, nullable sender FK,
text, creation timestamp. -/
structure Msg where
  id : Nat
  conv : Nat
  sender : Option Nat
  text : String
  createdAt : Nat
deriving Repr, DecidableEq

/-- A `chat.ConversationParticipant` row: conversation/user pair with the
nullable read pointer `last_read_message` (stored as a message id) and
`last_read_at`. -/
structure Participant where
  conv : Nat
  user : Nat
  lastReadMsg : Option Nat
  lastReadAt : Option Nat
deriving Repr, DecidableEq

/-- A `chat.Conversation` row: nullable `direct_key` (canonical pair of user
ids), nullable creator, `last_message_at`. -/
structure Conv where
  id : Nat
  directKey : Option (Nat × Nat)
  createdBy : Option Nat
  lastMessageAt : Option Nat
deriving Repr, DecidableEq

/-- `notifications.models.Notification.NOTIFICATION_TYPES`. -/
inductive NType
  | MESSAGE | LISTING_SOLD | NEW_OFFER | OFFER_ACCEPTED | OFFER_DECLINED | LISTING_EXPIRED
deriving Repr, DecidableEq

/-- A `notifications.Notification` row: type tag, nullable listing FK, nullable
message FK, `is_read`, recipient and actor user FKs. -/
structure Notif where
  id : Nat
  ntype : NType
  listing : Option Nat
  message : Option Nat
  isRead : Bool
  recipient : Nat
  actor : Nat
deriving Repr, DecidableEq

/-- The database state visible to the chat endpoints, plus `now` (the value
`timezone.now()` would return) and `nextId` (the next fresh primary key). -/
structure State where
  users : List Nat
  convs : List Conv
  parts : List Participant
  msgs : List Msg
  notifs : List Notif
  nextId : Nat
  now : Nat
deriving Repr, DecidableEq

/-- `Message.objects.get(pk=message_id, conversation=conv)` as a partial lookup. -/
def findMsgIn (s : State) (mid cid : Nat) : Option Msg :=
  s.msgs.find? (fun m => m.id == mid && m.conv == cid)

/-- `Message.objects.get(id=...)` (by primary key alone). -/
def findMsgById (s : State) (mid : Nat) : Option Msg :=
  s.msgs.find? (fun m => m.id == mid)

/-- `ConversationParticipant.objects.get(conversation=conv, user=user)`. -/
def findPart (s : State) (cid uid : Nat) : Option Participant :=
  s.parts.find? (fun p => p.conv == cid && p.user == uid)

/-- `Conversation.objects.get(pk=conv_id)`. -/
def findConv (s : State) (cid : Nat) : Option Conv :=
  s.convs.find? (fun c => c.id == cid)

/-- Creation time of the message a participant's read pointer refers to
(`part.last_read_message.created_at`); `none` when no pointer is set. -/
def ptrTime (s : State) (p : Participant) : Option Nat :=
  p.lastReadMsg.bind (fun mid => (findMsgById s mid).map (·.createdAt))

/-- The condition of `views.read` / `consumers._mark_as_read`:
`(not part.last_read_message) or (part.last_read_message.created_at < msg.created_at)`. -/
def shouldAdvance (s : State) (p : Participant) (m : Msg) : Bool :=
  match ptrTime s p with
  | none => true
  | some t => t < m.createdAt

/-- `part.save(update_fields=["last_read_message", "last_read_at"])`: replace
the participant row for its (conversation, user) pair. -/
def savePart (s : State) (p : Participant) : State :=
  { s with parts := s.parts.map (fun q => if q.conv == p.conv && q.user == p.user then p else q) }

/-- The `WHERE` clause of the notification-sync `UPDATE` in `views.read` and
`consumers._mark_as_read`: MESSAGE type, this recipient, underlying message in
this conversation with `created_at <= bound`, not yet read. -/
def syncMatches (s : State) (uid cid bound : Nat) (n : Notif) : Bool :=
  n.ntype == NType.MESSAGE && n.recipient == uid &&
    (match n.message.bind (findMsgById s) with
     | some m => m.conv == cid && m.createdAt ≤ bound
     | none => false) &&
    !n.isRead

/-- `Notification.objects.filter(...).update(is_read=True)`: collect the
primary keys selected by the filter, then set `is_read` on exactly those rows. -/
def syncNotifs (s : State) (uid cid bound : Nat) : State :=
  let hit := (s.notifs.filter (syncMatches s uid cid bound)).map (·.id)
  { s with notifs := s.notifs.map (fun n => if n.id ∈ hit then { n with isRead := true } else n) }

/-- The shared read-state reconciler body (steps 1–4 of the pointer update in
`views.read` and `consumers._mark_as_read`): resolve the message within the
conversation, resolve the participant, advance the pointer only if strictly
newer (or unset), then sync MESSAGE notifications up to the message's
timestamp.  Returns `none` when a lookup fails (`DoesNotExist`), otherwise
whether the pointer moved together with the new state. -/
def markReadCore (s : State) (uid cid mid : Nat) : Option (Bool × State) :=
  match findMsgIn s mid cid with
  | none => none
  | some msg =>
    match findPart s cid uid with
    | none => none
    | some part =>
      let upd := shouldAdvance s part msg
      let s1 := if upd then
          savePart s { part with lastReadMsg := some msg.id, lastReadAt := some s.now }
        else s
      some (upd, syncNotifs s1 uid cid msg.createdAt)

/-- Read pointer time for a (conversation, user) pair in a state, `none` when
the participant row is missing or has no pointer. -/
def ptrTimeState (s : State) (cid uid : Nat) : Option Nat :=
  (findPart s cid uid).bind (ptrTime s)

/-- Ordering on optional pointer times: an absent pointer precedes every
pointer. -/
def optLe : Option Nat → Option Nat → Prop
  | none, _ => True
  | some _, none => False
  | some a, some b => a ≤ b

instance : DecidablePred (fun p : Option Nat × Option Nat => optLe p.1 p.2) := by
  intro p
  rcases p with ⟨_ | a, _ | b⟩ <;> simp [optLe] <;> infer_instance

/-- Events published on the channel layer (`channel_layer.group_send` payloads
for the conversation's `chat.<id>` group). -/
inductive Event
  | messageNew (mid : Nat)
  | readBroadcast (mid : Nat) (reader : Nat)
deriving Repr, DecidableEq

/-- `ChatConsumer._create_msg`: `Conversation.objects.get(pk=conv_id)` (raises
`DoesNotExist` when absent, modelled as `none`), create the message with a
fresh id at the current time, and push the conversation's `last_message_at`
to the new message's creation time. -/
def createMsg (s : State) (uid cid : Nat) (text : String) : Option (Msg × State) :=
  match findConv s cid with
  | none => none
  | some _ =>
    let m : Msg := { id := s.nextId, conv := cid, sender := some uid,
                     text := text, createdAt := s.now }
    some (m, { s with
      msgs := s.msgs ++ [m],
      convs := s.convs.map (fun c => if c.id == cid then { c with lastMessageAt := some m.createdAt } else c),
      nextId := s.nextId + 1 })

/-- Python's `str.strip()`: drop leading and trailing whitespace.  (Defined
over the character list so that it evaluates inside the kernel.) -/
def strip (t : String) : String :=
  ⟨((t.data.dropWhile Char.isWhitespace).reverse.dropWhile Char.isWhitespace).reverse⟩

/-- Inbound websocket frames.  `content.get("type")` is the `typ` tag;
`content.get("message_id")` may be missing (`none`); any other `type` value is
the `other` case. -/
inductive Frame
  | messageSend (text : String)
  | readUpdate (mid : Option Nat)
  | other (typ : String)
deriving Repr, DecidableEq

/-- `ChatConsumer._mark_as_read`: both `DoesNotExist` branches `return`
silently, so the operation is total on states. -/
def wsMarkAsRead (s : State) (uid cid mid : Nat) : State :=
  match markReadCore s uid cid mid with
  | some (_, s') => s'
  | none => s

/-- `ChatConsumer.receive_json` while the connection is `Open`: dispatch on the
frame's `type`.  There is no try/except around the handlers, so an exception
raised inside (here: `Conversation.DoesNotExist` from `_create_msg`) escapes as
`Except.error`.  Returns the new state together with the events published on
the group. -/
def receiveJson (s : State) (uid cid : Nat) (f : Frame) : Except String (State × List Event) :=
  match f with
  | .messageSend text =>
    let t := strip text
    if t.isEmpty then .ok (s, [])
    else
      match createMsg s uid cid t with
      | none => .error "Conversation.DoesNotExist"
      | some (m, s') => .ok (s', [Event.messageNew m.id])
  | .readUpdate mid =>
    match mid with
    | none => .ok (s, [])
    | some mid =>
      let s' := wsMarkAsRead s uid cid mid
      .ok (s', [Event.readBroadcast mid uid])
  | .other _ => .ok (s, [])

/-- `ConversationViewSet.read` (`POST /conversations/{id}/read`): 400 when the
message id does not resolve within the conversation; the participant `get` is
unguarded, so a missing row is a server error (500); otherwise advance the
pointer under the strictly-newer rule, always sync notifications, and publish a
`read.broadcast` only `if updated`.  Returns (HTTP status, new state, events). -/
def restRead (s : State) (uid cid mid : Nat) : Nat × State × List Event :=
  match findMsgIn s mid cid with
  | none => (400, s, [])
  | some msg =>
    match findPart s cid uid with
    | none => (500, s, [])
    | some part =>
      let upd := shouldAdvance s part msg
      let s1 := if upd then
          savePart s { part with lastReadMsg := some msg.id, lastReadAt := some s.now }
        else s
      let s2 := syncNotifs s1 uid cid msg.createdAt
      (200, s2, if upd then [Event.readBroadcast mid uid] else [])

/-- Result of `ChatConsumer.connect`: either the socket is closed with a code,
or it is accepted after joining the conversation's group. -/
inductive ConnectResult
  | closed (code : Nat)
  | accepted (group : Nat)
deriving Repr, DecidableEq

/-- `ChatConsumer.connect`: no authenticated user (or `AnonymousUser`) closes
with 4001 before any group join; a non-member closes with 4003 before any
group join; otherwise the connection joins the `chat.<id>` group and is
accepted. -/
def wsConnect (s : State) (user : Option Nat) (cid : Nat) : ConnectResult :=
  match user with
  | none => .closed 4001
  | some uid =>
    if (s.parts.filter (fun p => p.conv == cid && p.user == uid)).isEmpty then
      .closed 4003
    else
      .accepted cid

/-- Descending `created_at` (`order_by("-created_at")`). -/
def byTimeDesc (a b : Msg) : Prop := b.createdAt ≤ a.createdAt

/-- Ascending `created_at` (`order_by("created_at")`). -/
def byTimeAsc (a b : Msg) : Prop := a.createdAt ≤ b.createdAt

instance : DecidableRel byTimeDesc := fun a b => inferInstanceAs (Decidable (b.createdAt ≤ a.createdAt))

instance : DecidableRel byTimeAsc := fun a b => inferInstanceAs (Decidable (a.createdAt ≤ b.createdAt))

instance : IsTotal Msg byTimeDesc := ⟨fun a b => Nat.le_total b.createdAt a.createdAt⟩

instance : IsTotal Msg byTimeAsc := ⟨fun a b => Nat.le_total a.createdAt b.createdAt⟩

instance : IsTrans Msg byTimeDesc := ⟨fun _ _ _ h h' => Nat.le_trans h' h⟩

instance : IsTrans Msg byTimeAsc := ⟨fun _ _ _ h h' => Nat.le_trans h h'⟩

/-- The database's sort for `order_by("-created_at")`. -/
def orderDesc (l : List Msg) : List Msg := List.insertionSort byTimeDesc l

/-- The database's sort for `order_by("created_at")`. -/
def orderAsc (l : List Msg) : List Msg := List.insertionSort byTimeAsc l

/-- A `before=` / `after=` query parameter: either a value that parses as a
message id (`uuid.UUID` succeeds) or one treated as a raw timestamp. -/
inductive Cursor
  | mid (v : Nat)
  | ts (t : Nat)
deriving Repr, DecidableEq

/-- `page = list(qs[:limit])`, the serialized results and
`next_before = page[-1].created_at if page else None`. -/
def pageOf (qs : List Msg) (limit : Nat) : List Msg × Option Nat :=
  let page := qs.take limit
  (page, page.getLast?.map (·.createdAt))

/-- `ConversationViewSet.messages` (`GET /conversations/{id}/messages`): start
from the conversation's messages newest-first; a `before` cursor narrows that
queryset (message-id lookup with timestamp fallback); an `after` cursor
REBUILDS the queryset from scratch in ascending order (discarding any `before`
narrowing), returning an empty page when `after` is a well-formed message id
that does not resolve in the conversation. -/
def listMessages (s : State) (cid : Nat) (before after : Option Cursor) (limit : Nat) :
    List Msg × Option Nat :=
  let qs0 := orderDesc (s.msgs.filter (fun m => m.conv == cid))
  let qs1 :=
    match before with
    | none => qs0
    | some (.mid v) =>
      match findMsgIn s v cid with
      | some bm => qs0.filter (fun m => m.createdAt < bm.createdAt)
      | none => qs0.filter (fun m => m.createdAt < v)
    | some (.ts t) => qs0.filter (fun m => m.createdAt < t)
  match after with
  | some (.mid v) =>
    match findMsgIn s v cid with
    | some am =>
      pageOf (orderAsc (s.msgs.filter (fun m => m.conv == cid && am.createdAt < m.createdAt))) limit
    | none => ([], none)
  | some (.ts t) =>
    pageOf (orderAsc (s.msgs.filter (fun m => m.conv == cid && t < m.createdAt))) limit
  | none => pageOf qs1 limit

/-- Modelled from the spec: `Conversation.make_direct_key` lives in
`backend/apps/chat/models.py`, which is not among the provided sources; the
spec requires "a canonical, order-independent composite of the two participant
identifiers", so the key is the ordered pair (min, max). -/
def make_direct_key (a b : Nat) : Nat × Nat := (min a b, max a b)

/-- The participant back-fill inside `ConversationViewSet.direct`:
`need = {request.user.id, peer.id} - have`, then one
`ConversationParticipant.objects.create` per missing user. -/
def addMissingParts (s : State) (convId me peerId : Nat) : State :=
  let haveIds := (s.parts.filter (fun p => p.conv == convId)).map (·.user)
  let need := (if me == peerId then [me] else [me, peerId]).filter (fun u => !(haveIds.contains u))
  { s with parts := s.parts ++ need.map (fun u => { conv := convId, user := u, lastReadMsg := none, lastReadAt := none }) }

/-- `ConversationViewSet.direct` (`POST /conversations/direct`): 404 when the
peer id does not exist; otherwise `get_or_create` on the symmetric
`direct_key` (201 on creation, 200 on fetch) followed by back-filling any
missing participant rows.  Returns (HTTP status, conversation id, state). -/
def direct (s : State) (me peerId : Nat) : Nat × Option Nat × State :=
  if s.users.contains peerId then
    match s.convs.find? (fun c => c.directKey == some (make_direct_key me peerId)) with
    | some conv =>
      (200, some conv.id, addMissingParts s conv.id me peerId)
    | none =>
      (201, some s.nextId,
        addMissingParts
          { s with
            convs := s.convs ++
              [⟨s.nextId, some (make_direct_key me peerId), some me, none⟩],
            nextId := s.nextId + 1 }
          s.nextId me peerId)
  else (404, none, s)

/-- First entry of the per-conversation newest-first iteration in
`ConversationViewSet.list` (`last_msg_map`). -/
def lastMsg (s : State) (cid : Nat) : Option Msg :=
  (orderDesc (s.msgs.filter (fun m => m.conv == cid))).head?

/-- The `unread` computation of `ConversationViewSet.list`: 0 unless the
conversation has a last message and the caller a participant row; then the
total message count when no read pointer is set, else the count of messages
strictly newer than the pointed-to message. -/
def unread_count (s : State) (c : Conv) (uid : Nat) : Nat :=
  match lastMsg s c.id, findPart s c.id uid with
  | some _, some part =>
    (match part.lastReadMsg with
     | none => (s.msgs.filter (fun m => m.conv == c.id)).length
     | some rid =>
       match findMsgById s rid with
       | some rm => (s.msgs.filter (fun m => m.conv == c.id && rm.createdAt < m.createdAt)).length
       | none => 0)
  | _, _ => 0

end Chat

namespace Notifications

open Chat

/-- A `listings.Listing` row, restricted to the fields the sold-notification
signal reads: primary key, owner (`listing.user`), `status`. -/
structure Listing where
  id : Nat
  user : Nat
  status : String
deriving Repr, DecidableEq

/-- A `transactions.Transaction` row, restricted to the fields the signals
read. -/
structure Txn where
  id : Nat
  listing : Nat
  buyer : Nat
  seller : Nat
  status : String
deriving Repr, DecidableEq

/-- `signals.create_sold_notification`, the `post_save` receiver for `Listing`:
on every save with `created=False` and `instance.status == 'sold'`, create one
LISTING_SOLD notification per non-CANCELLED transaction on the listing whose
buyer is not the owner.  Takes and returns the notification table together
with the next fresh primary key. -/
def create_sold_notification (created : Bool) (inst : Listing) (txns : List Txn)
    (notifs : List Notif) (nextId : Nat) : List Notif × Nat :=
  if !created && inst.status == "sold" then
    let active := txns.filter (fun tx => tx.listing == inst.id && !(tx.status == "CANCELLED"))
    active.foldl (fun acc tx =>
      if tx.buyer == inst.user then acc
      else
        (acc.1 ++ [{ id := acc.2, ntype := NType.LISTING_SOLD, listing := some inst.id,
                     message := none, isRead := false, recipient := tx.buyer,
                     actor := inst.user }], acc.2 + 1)) (notifs, nextId)
  else (notifs, nextId)

/-- LISTING_SOLD rows held for a given recipient about a given listing. -/
def soldNotifsFor (notifs : List Notif) (uid lid : Nat) : List Notif :=
  notifs.filter (fun n =>
    n.ntype == NType.LISTING_SOLD && n.recipient == uid && n.listing == some lid)

end Notifications

namespace Chat

/-- A sequence of `read.update` handlings for one user on one conversation
(the reconciler path applied repeatedly). -/
def runMarkReads (s : State) (uid cid : Nat) (mids : List Nat) : State :=
  mids.foldl (fun st mid => wsMarkAsRead st uid cid mid) s

/-- Whether a connect attempt ended up subscribed to the conversation's
fan-out group (`group_add` only happens on the accepted path). -/
def subscribedOf : ConnectResult → Bool
  | .accepted _ => true
  | .closed _ => false

/-- Whether an `after` cursor resolves: a message-id cursor must name an
existing message of the conversation; a timestamp cursor always resolves. -/
def cursorResolves (s : State) (cid : Nat) : Cursor → Bool
  | .mid v => (findMsgIn s v cid).isSome
  | .ts _ => true

/-- The notifications the spec says `mark_read_for_messages_up_to` must mark
read: MESSAGE type, recipient is the invoking user, underlying message in the
given conversation with creation time at most the bound.  (Stated from the
spec's wording, to be compared with the `WHERE` clause `syncMatches` taken
from the code.) -/
def specSyncTarget (s : State) (uid cid bound : Nat) (n : Notif) : Prop :=
  n.ntype = NType.MESSAGE ∧ n.recipient = uid ∧
    ∃ m, n.message.bind (findMsgById s) = some m ∧ m.conv = cid ∧ m.createdAt ≤ bound

/-- The events a websocket frame handling publishes (empty when the handler
raised). -/
def wsEvents (s : State) (uid cid : Nat) (f : Frame) : List Event :=
  match receiveJson s uid cid f with
  | .ok (_, evs) => evs
  | .error _ => []

/-- The state a websocket frame handling leaves behind (unchanged when the
handler raised). -/
def wsState (s : State) (uid cid : Nat) (f : Frame) : State :=
  match receiveJson s uid cid f with
  | .ok (s', _) => s'
  | .error _ => s

/-- Whether handling the frame completed without an exception escaping the
handler (`true` exactly when `receive_json` returns normally). -/
def frameHandledOk (s : State) (uid cid : Nat) (f : Frame) : Bool :=
  match receiveJson s uid cid f with
  | .ok _ => true
  | .error _ => false

/-- Fixture: users 1 and 2 share conversation 1 holding messages 1 (time 1)
and 2 (time 2); user 1's read pointer is already at message 2. -/
def S4 : State :=
  { users := [1, 2]
    convs := [{ id := 1, directKey := some (1, 2), createdBy := some 1, lastMessageAt := some 2 }]
    parts := [{ conv := 1, user := 1, lastReadMsg := some 2, lastReadAt := some 2 },
              { conv := 1, user := 2, lastReadMsg := none, lastReadAt := none }]
    msgs := [{ id := 1, conv := 1, sender := some 2, text := "a", createdAt := 1 },
             { id := 2, conv := 1, sender := some 2, text := "b", createdAt := 2 }]
    notifs := []
    nextId := 3
    now := 10 }

/-- Fixture: a state with no conversations at all. -/
def S5 : State :=
  { users := [1], convs := [], parts := [], msgs := [], notifs := [], nextId := 1, now := 0 }

/-- Fixture: the conversation of `S4` before any message was read, with the
two MESSAGE notifications the message signal would have produced for user 1,
plus one LISTING_SOLD notification and one MESSAGE notification owned by
user 2. -/
def S3 : State :=
  { S4 with
    parts := [{ conv := 1, user := 1, lastReadMsg := none, lastReadAt := none },
              { conv := 1, user := 2, lastReadMsg := none, lastReadAt := none }]
    notifs := [{ id := 1, ntype := NType.MESSAGE, listing := none, message := some 1,
                 isRead := false, recipient := 1, actor := 2 },
               { id := 2, ntype := NType.MESSAGE, listing := none, message := some 2,
                 isRead := false, recipient := 1, actor := 2 },
               { id := 3, ntype := NType.LISTING_SOLD, listing := some 7, message := none,
                 isRead := false, recipient := 1, actor := 2 },
               { id := 4, ntype := NType.MESSAGE, listing := none, message := some 1,
                 isRead := false, recipient := 2, actor := 1 }] }

/-- Fixture messages for the unread-count law: `N` messages in conversation
`cid`, the `i`-th (1-based) created at time `i` with id `i`. -/
def mkMsg (cid i : Nat) : Msg :=
  { id := i, conv := cid, sender := some 99, text := "m", createdAt := i }

/-- `N` peer messages, ids and creation times 1..N. -/
def mkMsgs (cid n : Nat) : List Msg :=
  (List.range n).map (fun i => mkMsg cid (i + 1))

/-- Fixture state for the unread-count law: conversation `cid` with `n`
messages and a single participant row for `uid` whose pointer is `ptr`. -/
def unreadState (cid uid n : Nat) (ptr : Option Nat) : State :=
  { users := [uid, 99]
    convs := [{ id := cid, directKey := none, createdBy := some uid, lastMessageAt := some n }]
    parts := [{ conv := cid, user := uid, lastReadMsg := ptr, lastReadAt := ptr }]
    msgs := mkMsgs cid n
    notifs := []
    nextId := n + 1
    now := n + 1 }

end Chat

namespace Chat

/-! ### Helper lemmas -/

theorem msgs_syncNotifs (s : State) (uid cid b : Nat) : (syncNotifs s uid cid b).msgs = s.msgs := rfl

theorem parts_syncNotifs (s : State) (uid cid b : Nat) : (syncNotifs s uid cid b).parts = s.parts := rfl

theorem msgs_savePart (s : State) (p : Participant) : (savePart s p).msgs = s.msgs := rfl

theorem optLe_refl (o : Option Nat) : optLe o o := by cases o <;> simp [optLe]

theorem optLe_trans {a b c : Option Nat} (h1 : optLe a b) (h2 : optLe b c) : optLe a c := by
  cases a <;> cases b <;> cases c <;> (simp_all [optLe]; try omega)

theorem find?_map_overwrite {α : Type} (p : α → Bool) (b : α) (hb : p b = true) :
    ∀ (l : List α), (l.find? p).isSome → (l.map (fun x => if p x then b else x)).find? p = some b := by
  intro l
  induction l with
  | nil => intro h; simp [List.find?] at h
  | cons x xs ih =>
    intro h
    by_cases hx : p x = true
    · simp [List.find?_cons_of_pos _ (by simpa [hx] using hb), hx]
    · have hx' : p x = false := by simpa using hx
      have hmap : (if p x then b else x) = x := by simp [hx']
      simp only [List.map_cons, hmap]
      rw [List.find?_cons_of_neg _ (by simp [hx'])]
      rw [List.find?_cons_of_neg _ (by simp [hx'])] at h
      exact ih h

theorem find?_id_of_nodup {α : Type} (f : α → Nat) :
    ∀ (l : List α), (l.map f).Nodup → ∀ a ∈ l, l.find? (fun x => f x == f a) = some a := by
  intro l
  induction l with
  | nil => intro _ a ha; simp at ha
  | cons x xs ih =>
    intro hnd a ha
    simp only [List.map_cons, List.nodup_cons] at hnd
    rcases List.mem_cons.mp ha with rfl | hmem
    · simp [List.find?_cons_of_pos]
    · have hne : (f x == f a) = false := by
        refine beq_eq_false_iff_ne.mpr ?_
        intro hEq
        exact hnd.1 (hEq ▸ List.mem_map_of_mem f hmem)
      rw [List.find?_cons_of_neg _ (by simp [hne])]
      exact ih hnd.2 a hmem

theorem findPart_savePart (s : State) (cid uid : Nat) (p' : Participant)
    (hc : p'.conv = cid) (hu : p'.user = uid)
    (h : (findPart s cid uid).isSome) :
    findPart (savePart s p') cid uid = some p' := by
  unfold findPart savePart at *
  simp only [hc, hu]
  exact find?_map_overwrite _ p' (by simp [hc, hu]) _ h

end Chat

namespace Chat

theorem findMsgIn_props {s : State} {mid cid : Nat} {msg : Msg}
    (hm : findMsgIn s mid cid = some msg) :
    msg ∈ s.msgs ∧ msg.id = mid ∧ msg.conv = cid := by
  have h1 := List.mem_of_find?_eq_some hm
  have h2 := List.find?_some hm
  simp only [Bool.and_eq_true, beq_iff_eq] at h2
  exact ⟨h1, h2.1, h2.2⟩

theorem findPart_props {s : State} {cid uid : Nat} {part : Participant}
    (hp : findPart s cid uid = some part) :
    part ∈ s.parts ∧ part.conv = cid ∧ part.user = uid := by
  have h1 := List.mem_of_find?_eq_some hp
  have h2 := List.find?_some hp
  simp only [Bool.and_eq_true, beq_iff_eq] at h2
  exact ⟨h1, h2.1, h2.2⟩

theorem findMsgById_of_nodup {s : State} {msg : Msg}
    (hids : (s.msgs.map (fun m => m.id)).Nodup) (hmem : msg ∈ s.msgs) :
    findMsgById s msg.id = some msg := by
  unfold findMsgById
  have h := find?_id_of_nodup (fun m : Msg => m.id) s.msgs hids msg hmem
  simpa using h

theorem markReadCore_eq (s : State) (uid cid mid : Nat) (msg : Msg) (part : Participant)
    (hm : findMsgIn s mid cid = some msg) (hp : findPart s cid uid = some part) :
    markReadCore s uid cid mid =
      some (shouldAdvance s part msg,
        syncNotifs
          (if shouldAdvance s part msg then
            savePart s { part with lastReadMsg := some msg.id, lastReadAt := some s.now }
          else s) uid cid msg.createdAt) := by
  unfold markReadCore
  rw [hm, hp]

theorem restRead_eq (s : State) (uid cid mid : Nat) (msg : Msg) (part : Participant)
    (hm : findMsgIn s mid cid = some msg) (hp : findPart s cid uid = some part) :
    restRead s uid cid mid =
      (200,
        syncNotifs
          (if shouldAdvance s part msg then
            savePart s { part with lastReadMsg := some msg.id, lastReadAt := some s.now }
          else s) uid cid msg.createdAt,
        if shouldAdvance s part msg then [Event.readBroadcast mid uid] else []) := by
  unfold restRead
  rw [hm, hp]

theorem ptrTimeState_syncNotifs (s : State) (u c b cid uid : Nat) :
    ptrTimeState (syncNotifs s u c b) cid uid = ptrTimeState s cid uid := rfl

theorem ptrTimeState_after_advance {s : State} {uid cid mid b : Nat} {msg : Msg} {part : Participant}
    (hids : (s.msgs.map (fun m => m.id)).Nodup)
    (hm : findMsgIn s mid cid = some msg) (hp : findPart s cid uid = some part) :
    ptrTimeState
      (syncNotifs (savePart s { part with lastReadMsg := some msg.id, lastReadAt := some s.now })
        uid cid b) cid uid = some msg.createdAt := by
  obtain ⟨hmem, hid, hcv⟩ := findMsgIn_props hm
  obtain ⟨-, hc, hu⟩ := findPart_props hp
  have hfp : findPart (savePart s { part with lastReadMsg := some msg.id, lastReadAt := some s.now }) cid uid
      = some { part with lastReadMsg := some msg.id, lastReadAt := some s.now } :=
    findPart_savePart s cid uid _ hc hu (by rw [hp]; rfl)
  have hById : findMsgById
      (savePart s { part with lastReadMsg := some msg.id, lastReadAt := some s.now }) msg.id
      = some msg := by
    have heq : findMsgById
        (savePart s { part with lastReadMsg := some msg.id, lastReadAt := some s.now }) msg.id
        = findMsgById s msg.id := rfl
    rw [heq, findMsgById_of_nodup hids hmem]
  rw [ptrTimeState_syncNotifs]
  unfold ptrTimeState
  rw [hfp]
  simp [ptrTime, hById]

theorem shouldAdvance_le {s : State} {part : Participant} {msg : Msg}
    (h : shouldAdvance s part msg = true) : optLe (ptrTime s part) (some msg.createdAt) := by
  unfold shouldAdvance at h
  cases hpt : ptrTime s part with
  | none => simp [optLe]
  | some t =>
    rw [hpt] at h
    simp only [decide_eq_true_eq] at h
    simpa [optLe] using Nat.le_of_lt h

theorem wsMarkAsRead_mono (s : State) (uid cid mid : Nat)
    (hids : (s.msgs.map (fun m => m.id)).Nodup) :
    optLe (ptrTimeState s cid uid) (ptrTimeState (wsMarkAsRead s uid cid mid) cid uid) := by
  unfold wsMarkAsRead
  cases hmr : markReadCore s uid cid mid with
  | none => exact optLe_refl _
  | some r =>
    cases hm : findMsgIn s mid cid with
    | none => rw [markReadCore] at hmr; rw [hm] at hmr; cases hmr
    | some msg =>
      cases hp : findPart s cid uid with
      | none => rw [markReadCore] at hmr; rw [hm, hp] at hmr; cases hmr
      | some part =>
        rw [markReadCore_eq s uid cid mid msg part hm hp] at hmr
        obtain rfl := (Option.some.injEq _ _).mp hmr
        by_cases hAdv : shouldAdvance s part msg = true
        · rw [hAdv]
          simp only [if_true]
          rw [ptrTimeState_after_advance hids hm hp]
          have : ptrTimeState s cid uid = ptrTime s part := by
            unfold ptrTimeState; rw [hp]; rfl
          rw [this]
          exact shouldAdvance_le hAdv
        · rw [Bool.not_eq_true] at hAdv
          rw [hAdv]
          simp only [Bool.false_eq_true, if_false]
          rw [ptrTimeState_syncNotifs]
          exact optLe_refl _

theorem wsMarkAsRead_msgs (s : State) (uid cid mid : Nat) :
    (wsMarkAsRead s uid cid mid).msgs = s.msgs := by
  unfold wsMarkAsRead
  cases hmr : markReadCore s uid cid mid with
  | none => rfl
  | some r =>
    cases hm : findMsgIn s mid cid with
    | none => rw [markReadCore] at hmr; rw [hm] at hmr; cases hmr
    | some msg =>
      cases hp : findPart s cid uid with
      | none => rw [markReadCore] at hmr; rw [hm, hp] at hmr; cases hmr
      | some part =>
        rw [markReadCore_eq s uid cid mid msg part hm hp] at hmr
        obtain rfl := (Option.some.injEq _ _).mp hmr
        by_cases hAdv : shouldAdvance s part msg = true
        · rw [hAdv]; rfl
        · rw [Bool.not_eq_true] at hAdv; rw [hAdv]; rfl

theorem runMarkReads_mono (s : State) (uid cid : Nat) (mids : List Nat)
    (hids : (s.msgs.map (fun m => m.id)).Nodup) :
    optLe (ptrTimeState s cid uid) (ptrTimeState (runMarkReads s uid cid mids) cid uid) := by
  induction mids generalizing s with
  | nil => exact optLe_refl _
  | cons mid rest ih =>
    have step := wsMarkAsRead_mono s uid cid mid hids
    have hids' : ((wsMarkAsRead s uid cid mid).msgs.map (fun m => m.id)).Nodup := by
      rw [wsMarkAsRead_msgs]; exact hids
    exact optLe_trans step (ih (wsMarkAsRead s uid cid mid) hids')

end Chat

namespace Chat

/-- C1: For every mark-read call (REST `POST /conversations/{id}/read` or the
reconciler path) by a conversation member with a message of that conversation,
the read pointer is updated iff no pointer is set or the candidate message's
creation time is strictly later than the pointed-to message's; an older-or-equal
candidate leaves the pointer unchanged and the call reports no update; over any
sequence of such calls the pointer's message creation time is monotonically
non-decreasing. -/
theorem C1_read_pointer_strictly_newer_and_monotone :
    (∀ (s : State) (uid cid mid : Nat) (msg : Msg) (part : Participant),
      (s.msgs.map (fun m => m.id)).Nodup →
      findMsgIn s mid cid = some msg →
      findPart s cid uid = some part →
      ∃ s',
        markReadCore s uid cid mid = some (shouldAdvance s part msg, s') ∧
        restRead s uid cid mid =
          (200, s', if shouldAdvance s part msg then [Event.readBroadcast mid uid] else []) ∧
        (shouldAdvance s part msg = true ↔
          ptrTime s part = none ∨ ∃ t, ptrTime s part = some t ∧ t < msg.createdAt) ∧
        (shouldAdvance s part msg = false → findPart s' cid uid = some part) ∧
        (shouldAdvance s part msg = true → ptrTimeState s' cid uid = some msg.createdAt) ∧
        optLe (ptrTimeState s cid uid) (ptrTimeState s' cid uid)) ∧
    (∀ (s : State) (uid cid : Nat) (mids : List Nat),
      (s.msgs.map (fun m => m.id)).Nodup →
      optLe (ptrTimeState s cid uid) (ptrTimeState (runMarkReads s uid cid mids) cid uid)) := by
  constructor
  · intro s uid cid mid msg part hids hm hp
    refine ⟨_, markReadCore_eq s uid cid mid msg part hm hp,
      restRead_eq s uid cid mid msg part hm hp, ?_, ?_, ?_, ?_⟩
    · unfold shouldAdvance
      cases hpt : ptrTime s part with
      | none => simp
      | some t => simp
    · intro h
      rw [h]
      simp only [Bool.false_eq_true, if_false]
      exact hp
    · intro h
      rw [h]
      simp only [if_true]
      exact ptrTimeState_after_advance hids hm hp
    · have heq : wsMarkAsRead s uid cid mid =
          syncNotifs
            (if shouldAdvance s part msg then
              savePart s { part with lastReadMsg := some msg.id, lastReadAt := some s.now }
            else s) uid cid msg.createdAt := by
        unfold wsMarkAsRead
        rw [markReadCore_eq s uid cid mid msg part hm hp]
      rw [← heq]
      exact wsMarkAsRead_mono s uid cid mid hids
  · intro s uid cid mids hids
    exact runMarkReads_mono s uid cid mids hids

/-- Witness for C1 at a concrete state: user 1 of `S3` marks message 1 read
(pointer unset, so the call updates), and a sequence of calls leaves the
pointer time monotonically non-decreasing. -/
theorem C1_read_pointer_witness :
    (∃ s', markReadCore S3 1 1 1 = some (true, s')) ∧
    optLe (ptrTimeState S3 1 1) (ptrTimeState (runMarkReads S3 1 1 [1, 2]) 1 1) := by
  have h := C1_read_pointer_strictly_newer_and_monotone
  constructor
  · obtain ⟨s', h1, -⟩ := h.1 S3 1 1 1
      { id := 1, conv := 1, sender := some 2, text := "a", createdAt := 1 }
      { conv := 1, user := 1, lastReadMsg := none, lastReadAt := none }
      (by decide) (by decide) (by decide)
    have hAdv : shouldAdvance S3
        { conv := 1, user := 1, lastReadMsg := none, lastReadAt := none }
        { id := 1, conv := 1, sender := some 2, text := "a", createdAt := 1 } = true := by decide
    rw [hAdv] at h1
    exact ⟨s', h1⟩
  · exact h.2 S3 1 1 [1, 2] (by decide)

end Chat

namespace Notifications

/-- C2 (failing evaluation): the `post_save` receiver for `Listing` fires on
EVERY update-save while `status == 'sold'`, not only on the transition.
Saving a listing that is already sold (owner 10, one PENDING transaction by
buyer 20) a second time creates a second LISTING_SOLD notification for the
same buyer, so "subsequent unrelated updates never re-trigger derivation" is
violated by the code. -/
theorem C2_sold_resave_creates_duplicate_notifications :
    (soldNotifsFor
      (create_sold_notification false
        { id := 1, user := 10, status := "sold" }
        [{ id := 1, listing := 1, buyer := 20, seller := 10, status := "PENDING" }]
        (create_sold_notification false
          { id := 1, user := 10, status := "sold" }
          [{ id := 1, listing := 1, buyer := 20, seller := 10, status := "PENDING" }]
          [] 100).1
        101).1
      20 1).length = 2 := by decide

end Notifications

namespace Chat

/-- C8: a connect with no authenticated identity is closed with code 4001 and
never subscribed to the conversation's group; an authenticated non-participant
is closed with the distinct code 4003 and never subscribed. -/
theorem C8_connect_refusals_never_subscribe :
    (∀ (s : State) (cid : Nat),
      wsConnect s none cid = ConnectResult.closed 4001 ∧
      subscribedOf (wsConnect s none cid) = false) ∧
    (∀ (s : State) (cid uid : Nat),
      (¬ ∃ p ∈ s.parts, p.conv = cid ∧ p.user = uid) →
      wsConnect s (some uid) cid = ConnectResult.closed 4003 ∧
      subscribedOf (wsConnect s (some uid) cid) = false) := by
  constructor
  · intro s cid
    exact ⟨rfl, rfl⟩
  · intro s cid uid hno
    have hfil : s.parts.filter (fun p => p.conv == cid && p.user == uid) = [] := by
      rw [List.filter_eq_nil_iff]
      intro p hp hcontra
      simp only [Bool.and_eq_true, beq_iff_eq] at hcontra
      exact hno ⟨p, hp, hcontra⟩
    constructor
    · simp [wsConnect, hfil]
    · simp [subscribedOf, wsConnect, hfil]

/-- Witness for C8: in the empty-participants state `S5`, user 1 is not a
member of conversation 1, so the connect closes with 4003, unsubscribed. -/
theorem C8_connect_refusals_witness :
    wsConnect S5 (some 1) 1 = ConnectResult.closed 4003 ∧
    subscribedOf (wsConnect S5 (some 1) 1) = false :=
  C8_connect_refusals_never_subscribe.2 S5 1 1 (by simp [S5])

/-- C9: whenever the `after` parameter resolves (an existing message id of the
conversation, or a timestamp), the page is computed from the `after` bound
alone in ascending creation-time order — any `before` parameter in the same
request has no effect, because the queryset is rebuilt from scratch. -/
theorem C9_after_discards_before :
    ∀ (s : State) (cid : Nat) (before : Option Cursor) (c : Cursor) (limit : Nat),
      cursorResolves s cid c = true →
      listMessages s cid before (some c) limit = listMessages s cid none (some c) limit ∧
      List.Sorted byTimeAsc (listMessages s cid before (some c) limit).1 := by
  intro s cid before c limit hres
  cases c with
  | ts t =>
    refine ⟨rfl, ?_⟩
    show List.Sorted byTimeAsc ((orderAsc _).take limit)
    exact List.Pairwise.sublist (List.take_sublist limit _) (List.sorted_insertionSort byTimeAsc _)
  | mid v =>
    unfold cursorResolves at hres
    rw [Option.isSome_iff_exists] at hres
    obtain ⟨am, ham⟩ := hres
    constructor
    · simp only [listMessages, ham]
    · simp only [listMessages, ham]
      show List.Sorted byTimeAsc ((orderAsc _).take limit)
      exact List.Pairwise.sublist (List.take_sublist limit _) (List.sorted_insertionSort byTimeAsc _)

/-- Witness for C9: in `S4`, a request carrying both `before = message 2` and
`after = timestamp 0` returns the same (ascending) page as one carrying only
`after`. -/
theorem C9_after_discards_before_witness :
    listMessages S4 1 (some (Cursor.mid 2)) (some (Cursor.ts 0)) 10 =
      listMessages S4 1 none (some (Cursor.ts 0)) 10 ∧
    List.Sorted byTimeAsc (listMessages S4 1 (some (Cursor.mid 2)) (some (Cursor.ts 0)) 10).1 :=
  C9_after_discards_before S4 1 (some (Cursor.mid 2)) (Cursor.ts 0) 10 (by decide)

end Chat

namespace Chat

theorem createMsg_isNone (s : State) (uid cid : Nat) (text : String) :
    createMsg s uid cid text = none ↔ findConv s cid = none := by
  unfold createMsg
  cases h : findConv s cid <;> simp

/-- C4 counterexample: in `S4` user 1's pointer already sits at message 2, so a
`read.update` frame for the older message 1 moves nothing (the state is
unchanged) — yet the handler still publishes a `read.broadcast` event, so
"published iff the pointer actually moved" is false on the live-connection
path. -/
theorem C4_ws_receipt_without_pointer_move :
    wsEvents S4 1 1 (Frame.readUpdate (some 1)) = [Event.readBroadcast 1 1] ∧
    wsState S4 1 1 (Frame.readUpdate (some 1)) = S4 := by decide

/-- C4 (amended): only the REST read endpoint publishes a read receipt iff the
pointer moved; the live connection's `read.update` handler publishes the
receipt unconditionally whenever a message id is present, regardless of
whether the pointer moved. -/
theorem C4_receipt_rest_gated_ws_unconditional :
    (∀ (s : State) (uid cid mid : Nat) (msg : Msg) (part : Participant),
      findMsgIn s mid cid = some msg →
      findPart s cid uid = some part →
      ∃ s', restRead s uid cid mid =
        (200, s', if shouldAdvance s part msg then [Event.readBroadcast mid uid] else [])) ∧
    (∀ (s : State) (uid cid mid : Nat),
      wsEvents s uid cid (Frame.readUpdate (some mid)) = [Event.readBroadcast mid uid]) := by
  constructor
  · intro s uid cid mid msg part hm hp
    exact ⟨_, restRead_eq s uid cid mid msg part hm hp⟩
  · intro s uid cid mid
    rfl

/-- Witness for the amended C4: in `S4` the no-op REST read of message 2
publishes nothing, while a websocket `read.update` always publishes. -/
theorem C4_receipt_witness :
    (∃ s', restRead S4 1 1 2 = (200, s', [])) ∧
    wsEvents S4 1 1 (Frame.readUpdate (some 5)) = [Event.readBroadcast 5 1] := by
  have h := C4_receipt_rest_gated_ws_unconditional
  constructor
  · obtain ⟨s', hs⟩ := h.1 S4 1 1 2
      { id := 2, conv := 1, sender := some 2, text := "b", createdAt := 2 }
      { conv := 1, user := 1, lastReadMsg := some 2, lastReadAt := some 2 }
      (by decide) (by decide)
    have hAdv : shouldAdvance S4
        { conv := 1, user := 1, lastReadMsg := some 2, lastReadAt := some 2 }
        { id := 2, conv := 1, sender := some 2, text := "b", createdAt := 2 } = false := by decide
    rw [hAdv] at hs
    simp only [Bool.false_eq_true, if_false] at hs
    exact ⟨s', hs⟩
  · exact h.2 S4 1 1 5

/-- C5 counterexample: `receive_json` wraps no handler in try/except, so a
`message.send` frame in a state whose conversation row is missing hits
`Conversation.DoesNotExist` inside `_create_msg` and the exception escapes the
frame handler — "any exception raised while handling a frame is caught" is
false. -/
theorem C5_message_send_exception_escapes :
    frameHandledOk S5 1 1 (Frame.messageSend "hi") = false := by decide

/-- C5 (amended): frames with an unknown type are silently ignored (no error,
no state change, no events), and `read.update` handling catches its lookup
failures, but an exception raised during `message.send` handling is NOT
caught: handling fails exactly when the text is non-empty after stripping and
the conversation row does not exist. -/
theorem C5_unknown_ignored_send_can_raise :
    (∀ (s : State) (uid cid : Nat) (typ : String),
      receiveJson s uid cid (Frame.other typ) = .ok (s, [])) ∧
    (∀ (s : State) (uid cid : Nat) (mid : Option Nat),
      frameHandledOk s uid cid (Frame.readUpdate mid) = true) ∧
    (∀ (s : State) (uid cid : Nat) (text : String),
      frameHandledOk s uid cid (Frame.messageSend text) = false ↔
        ((strip text).isEmpty = false ∧ findConv s cid = none)) := by
  refine ⟨fun s uid cid typ => rfl, fun s uid cid mid => by cases mid <;> rfl, ?_⟩
  intro s uid cid text
  unfold frameHandledOk receiveJson
  by_cases he : (strip text).isEmpty = true
  · simp [he]
  · have he' : (strip text).isEmpty = false := by simpa using he
    simp only [he', Bool.false_eq_true, if_false]
    cases hcm : createMsg s uid cid (strip text) with
    | none =>
      have hconv := (createMsg_isNone s uid cid (strip text)).mp hcm
      simp [hconv]
    | some r =>
      have hconv : ¬ findConv s cid = none := by
        intro hc
        rw [(createMsg_isNone s uid cid (strip text)).mpr hc] at hcm
        cases hcm
      simp [hconv]

end Chat

namespace Chat

theorem syncMatches_iff (s : State) (uid cid bound : Nat) (n : Notif) :
    syncMatches s uid cid bound n = true ↔
      (specSyncTarget s uid cid bound n ∧ n.isRead = false) := by
  unfold syncMatches specSyncTarget
  cases hb : n.message.bind (findMsgById s) with
  | none => simp [hb]
  | some m =>
    simp only [hb, Bool.and_eq_true, beq_iff_eq, Bool.not_eq_true', decide_eq_true_eq,
      Option.some.injEq]
    constructor
    · rintro ⟨⟨⟨h1, h2⟩, h3, h4⟩, h5⟩
      exact ⟨⟨h1, h2, m, rfl, h3, h4⟩, h5⟩
    · rintro ⟨⟨h1, h2, m', hm', h3, h4⟩, h5⟩
      cases hm'
      exact ⟨⟨⟨h1, h2⟩, h3, h4⟩, h5⟩

theorem hit_mem_iff {s : State} {uid cid bound : Nat}
    (hnd : (s.notifs.map (fun n => n.id)).Nodup) {n : Notif} (hn : n ∈ s.notifs) :
    (n.id ∈ (s.notifs.filter (syncMatches s uid cid bound)).map (fun n => n.id)) ↔
      syncMatches s uid cid bound n = true := by
  constructor
  · intro h
    obtain ⟨n', hn', hid⟩ := List.mem_map.mp h
    obtain ⟨hmem', hmatch⟩ := List.mem_filter.mp hn'
    have heq : n' = n := List.inj_on_of_nodup_map hnd hmem' hn hid
    rwa [heq] at hmatch
  · intro h
    exact List.mem_map.mpr ⟨n, List.mem_filter.mpr ⟨hn, h⟩, rfl⟩

/-- C3: the notification sync of the mark-read paths sets `is_read` exactly on
MESSAGE notifications of the invoking user whose underlying message belongs to
the conversation and was created no later than the bound; every other
notification (other types, recipients, conversations, or later messages) keeps
all its fields unchanged. -/
theorem C3_notification_sync_frame :
    ∀ (s : State) (uid cid bound : Nat),
      (s.notifs.map (fun n => n.id)).Nodup →
      List.Forall₂ (fun n n' =>
          (n'.isRead = true ↔ (n.isRead = true ∨ specSyncTarget s uid cid bound n)) ∧
          n'.id = n.id ∧ n'.ntype = n.ntype ∧ n'.listing = n.listing ∧
          n'.message = n.message ∧ n'.recipient = n.recipient ∧ n'.actor = n.actor)
        s.notifs (syncNotifs s uid cid bound).notifs := by
  intro s uid cid bound hnd
  show List.Forall₂ _ s.notifs
    (s.notifs.map (fun n =>
      if n.id ∈ (s.notifs.filter (syncMatches s uid cid bound)).map (fun n => n.id) then
        { n with isRead := true }
      else n))
  rw [List.forall₂_map_right_iff]
  rw [List.forall₂_same]
  intro n hn
  by_cases hin : n.id ∈ (s.notifs.filter (syncMatches s uid cid bound)).map (fun n => n.id)
  · rw [if_pos hin]
    refine ⟨?_, rfl, rfl, rfl, rfl, rfl, rfl⟩
    have hmatch := (hit_mem_iff hnd hn).mp hin
    have htgt := ((syncMatches_iff s uid cid bound n).mp hmatch).1
    simp [htgt]
  · rw [if_neg hin]
    refine ⟨?_, rfl, rfl, rfl, rfl, rfl, rfl⟩
    constructor
    · exact fun h => Or.inl h
    · rintro (h | htgt)
      · exact h
      · by_contra hfalse
        have hread : n.isRead = false := by
          revert hfalse
          cases n.isRead <;> simp
        have hmatch := (syncMatches_iff s uid cid bound n).mpr ⟨htgt, hread⟩
        exact hin ((hit_mem_iff hnd hn).mpr hmatch)

/-- Witness for C3 at `S3`: syncing user 1's MESSAGE notifications of
conversation 1 up to time 1 relates the four stored notifications row by row. -/
theorem C3_notification_sync_witness :
    List.Forall₂ (fun n n' =>
        (n'.isRead = true ↔ (n.isRead = true ∨ specSyncTarget S3 1 1 1 n)) ∧
        n'.id = n.id ∧ n'.ntype = n.ntype ∧ n'.listing = n.listing ∧
        n'.message = n.message ∧ n'.recipient = n.recipient ∧ n'.actor = n.actor)
      S3.notifs (syncNotifs S3 1 1 1).notifs :=
  C3_notification_sync_frame S3 1 1 1 (by decide)

end Chat

namespace Chat

theorem countP_range_succ_lt (n k : Nat) (h : k ≤ n) :
    (List.range n).countP (fun i => decide (k < i + 1)) = n - k := by
  induction n with
  | zero => simp
  | succ n ih =>
    rw [List.range_succ, List.countP_append]
    by_cases hk : k ≤ n
    · rw [ih hk]
      have hlt : k < n + 1 := Nat.lt_succ_of_le hk
      have hone : List.countP (fun i => decide (k < i + 1)) [n] = 1 := by
        simp [List.countP_cons, hlt]
      rw [hone]
      omega
    · have hk1 : k = n + 1 := by omega
      subst hk1
      have h0 : (List.range n).countP (fun i => decide (n + 1 < i + 1)) = 0 :=
        List.countP_eq_zero.mpr (by
          intro i hi
          have hlt := List.mem_range.mp hi
          simp only [decide_eq_true_eq]
          omega)
      have h1 : List.countP (fun i => decide (n + 1 < i + 1)) [n] = 0 := by
        simp
      rw [h0, h1]
      omega

theorem find?_mkMsgs (cid : Nat) :
    ∀ (n k : Nat), 1 ≤ k → k ≤ n →
      (mkMsgs cid n).find? (fun m => m.id == k) = some (mkMsg cid k) := by
  intro n
  induction n with
  | zero => intro k h1 h2; omega
  | succ n ih =>
    intro k h1 h2
    have hsplit : mkMsgs cid (n + 1) = mkMsgs cid n ++ [mkMsg cid (n + 1)] := by
      unfold mkMsgs
      rw [List.range_succ, List.map_append]
      rfl
    rw [hsplit, List.find?_append]
    by_cases hk : k ≤ n
    · rw [ih k h1 hk]
      rfl
    · have hk1 : k = n + 1 := by omega
      subst hk1
      have hnone : (mkMsgs cid n).find? (fun m => m.id == n + 1) = none := by
        rw [List.find?_eq_none]
        intro m hm
        unfold mkMsgs at hm
        obtain ⟨i, hi, rfl⟩ := List.mem_map.mp hm
        have hlt := List.mem_range.mp hi
        simp only [mkMsg, beq_iff_eq]
        omega
      rw [hnone]
      simp [mkMsg]

theorem filter_conv_mkMsgs (cid n : Nat) :
    (mkMsgs cid n).filter (fun m => m.conv == cid) = mkMsgs cid n := by
  rw [List.filter_eq_self]
  intro m hm
  unfold mkMsgs at hm
  obtain ⟨i, hi, rfl⟩ := List.mem_map.mp hm
  simp [mkMsg]

theorem filter_unread_mkMsgs (cid n k : Nat) (h : k ≤ n) :
    ((mkMsgs cid n).filter (fun m => m.conv == cid && decide (k < m.createdAt))).length
      = n - k := by
  unfold mkMsgs
  rw [← List.countP_eq_length_filter, List.countP_map]
  have hfun : ((fun m => m.conv == cid && decide (k < m.createdAt)) ∘ fun i => mkMsg cid (i + 1))
      = fun i => decide (k < i + 1) := by
    funext i
    simp [mkMsg, Function.comp]
  rw [hfun]
  exact countP_range_succ_lt n k h

theorem lastMsg_none_filter_nil {s : State} {cid : Nat} (hl : lastMsg s cid = none) :
    s.msgs.filter (fun m => m.conv == cid) = [] := by
  unfold lastMsg orderDesc at hl
  rw [List.head?_eq_none_iff] at hl
  have hperm := List.perm_insertionSort byTimeDesc (s.msgs.filter (fun m => m.conv == cid))
  rw [hl] at hperm
  exact hperm.symm.eq_nil

theorem unread_count_no_ptr (s : State) (c : Conv) (uid : Nat) (part : Participant)
    (hp : findPart s c.id uid = some part) (hnone : part.lastReadMsg = none) :
    unread_count s c uid = (s.msgs.filter (fun m => m.conv == c.id)).length := by
  unfold unread_count
  rw [hp]
  cases hl : lastMsg s c.id with
  | none =>
    rw [lastMsg_none_filter_nil hl]
    rfl
  | some lm =>
    simp only [hnone]

theorem unread_count_ptr (s : State) (c : Conv) (uid : Nat) (part : Participant)
    (rid : Nat) (rm : Msg)
    (hp : findPart s c.id uid = some part) (hrid : part.lastReadMsg = some rid)
    (hrm : findMsgById s rid = some rm) :
    unread_count s c uid =
      (s.msgs.filter (fun m => m.conv == c.id && rm.createdAt < m.createdAt)).length := by
  unfold unread_count
  rw [hp]
  cases hl : lastMsg s c.id with
  | none =>
    have hnil := lastMsg_none_filter_nil hl
    have hnil2 : s.msgs.filter (fun m => m.conv == c.id && rm.createdAt < m.createdAt) = [] := by
      rw [List.filter_eq_nil_iff]
      intro m hm hcontra
      have hn := List.filter_eq_nil_iff.mp hnil m hm
      simp only [Bool.and_eq_true] at hcontra
      exact hn hcontra.1
    rw [hnil2]
    rfl
  | some lm =>
    simp only [hrid, hrm]

/-- C6: the unread count reported by the conversation-list endpoint for a
member with no read pointer equals the total number of messages in the
conversation; with a pointer it equals the number of messages strictly newer
than the pointed-to message; hence after N peer messages with no read action
it is N, and after marking the K-th message read it is N−K. -/
theorem C6_unread_count_characterization :
    (∀ (s : State) (c : Conv) (uid : Nat) (part : Participant),
      findPart s c.id uid = some part → part.lastReadMsg = none →
      unread_count s c uid = (s.msgs.filter (fun m => m.conv == c.id)).length) ∧
    (∀ (s : State) (c : Conv) (uid : Nat) (part : Participant) (rid : Nat) (rm : Msg),
      findPart s c.id uid = some part → part.lastReadMsg = some rid →
      findMsgById s rid = some rm →
      unread_count s c uid =
        (s.msgs.filter (fun m => m.conv == c.id && rm.createdAt < m.createdAt)).length) ∧
    (∀ (cid uid n : Nat),
      unread_count (unreadState cid uid n none)
        { id := cid, directKey := none, createdBy := some uid, lastMessageAt := some n } uid
        = n) ∧
    (∀ (cid uid n k : Nat), 1 ≤ k → k ≤ n →
      unread_count (unreadState cid uid n (some k))
        { id := cid, directKey := none, createdBy := some uid, lastMessageAt := some n } uid
        = n - k) := by
  refine ⟨unread_count_no_ptr, unread_count_ptr, ?_, ?_⟩
  · intro cid uid n
    have hp : findPart (unreadState cid uid n none) cid uid
        = some { conv := cid, user := uid, lastReadMsg := none, lastReadAt := none } := by
      simp [findPart, unreadState, List.find?_cons]
    rw [unread_count_no_ptr (unreadState cid uid n none)
      { id := cid, directKey := none, createdBy := some uid, lastMessageAt := some n } uid
      { conv := cid, user := uid, lastReadMsg := none, lastReadAt := none } hp rfl]
    show ((mkMsgs cid n).filter (fun m => m.conv == cid)).length = n
    rw [filter_conv_mkMsgs]
    unfold mkMsgs
    simp
  · intro cid uid n k h1 h2
    have hp : findPart (unreadState cid uid n (some k)) cid uid
        = some { conv := cid, user := uid, lastReadMsg := some k, lastReadAt := some k } := by
      simp [findPart, unreadState, List.find?_cons]
    have hrm : findMsgById (unreadState cid uid n (some k)) k = some (mkMsg cid k) := by
      show (mkMsgs cid n).find? (fun m => m.id == k) = some (mkMsg cid k)
      exact find?_mkMsgs cid n k h1 h2
    rw [unread_count_ptr (unreadState cid uid n (some k))
      { id := cid, directKey := none, createdBy := some uid, lastMessageAt := some n } uid
      { conv := cid, user := uid, lastReadMsg := some k, lastReadAt := some k }
      k (mkMsg cid k) hp rfl hrm]
    exact filter_unread_mkMsgs cid n k h2

/-- Witness for C6: three peer messages, the second marked read, leaves one
unread message. -/
theorem C6_unread_count_witness :
    unread_count (unreadState 1 5 3 (some 2))
      { id := 1, directKey := none, createdBy := some 5, lastMessageAt := some 3 } 5 = 1 :=
  C6_unread_count_characterization.2.2.2 1 5 3 2 (by decide) (by decide)

end Chat


namespace Chat

theorem make_direct_key_comm (a b : Nat) : make_direct_key a b = make_direct_key b a := by
  unfold make_direct_key
  rw [Nat.min_comm, Nat.max_comm]

theorem direct_found (s : State) (me peerId : Nat) (conv : Conv)
    (huser : s.users.contains peerId = true)
    (hfind : s.convs.find? (fun c => c.directKey == some (make_direct_key me peerId))
      = some conv) :
    direct s me peerId = (200, some conv.id, addMissingParts s conv.id me peerId) := by
  have hmem : peerId ∈ s.users := by simpa using huser
  simp [direct, hfind, hmem]

theorem direct_create (s : State) (me peerId : Nat)
    (huser : s.users.contains peerId = true)
    (hfind : s.convs.find? (fun c => c.directKey == some (make_direct_key me peerId)) = none) :
    direct s me peerId = (201, some s.nextId,
      addMissingParts
        { s with
          convs := s.convs ++ [⟨s.nextId, some (make_direct_key me peerId), some me, none⟩],
          nextId := s.nextId + 1 }
        s.nextId me peerId) := by
  have hmem : peerId ∈ s.users := by simpa using huser
  simp [direct, hfind, hmem]

theorem addMissingParts_create (s : State) (convId me peerId : Nat)
    (hfil : s.parts.filter (fun p => p.conv == convId) = [])
    (hne : (me == peerId) = false) :
    addMissingParts s convId me peerId
      = { s with parts := s.parts ++ [⟨convId, me, none, none⟩, ⟨convId, peerId, none, none⟩] } := by
  simp [addMissingParts, hfil, hne]

theorem addMissingParts_create_self (s : State) (convId u : Nat)
    (hfil : s.parts.filter (fun p => p.conv == convId) = []) :
    addMissingParts s convId u u
      = { s with parts := s.parts ++ [⟨convId, u, none, none⟩] } := by
  simp [addMissingParts, hfil]

theorem addMissingParts_present (s : State) (convId me peerId : Nat)
    (hme : me ∈ (s.parts.filter (fun p => p.conv == convId)).map (fun p => p.user))
    (hpeer : peerId ∈ (s.parts.filter (fun p => p.conv == convId)).map (fun p => p.user)) :
    addMissingParts s convId me peerId = s := by
  unfold addMissingParts
  by_cases h : (me == peerId) = true
  · simp [h, hme]
  · have h' : (me == peerId) = false := by simpa using h
    simp [h', hme, hpeer]

end Chat

namespace Chat

/-- C7: `POST /conversations/direct` is idempotent and convergent for a pair of
users: the first call creates the conversation (201) and both participant
rows; a later call in either argument order returns the same conversation id
with 200 and leaves the state unchanged, and exactly one conversation row with
that direct key exists afterward. -/
theorem C7_direct_idempotent_convergent :
    ∀ (s : State) (a b : Nat),
      s.users.contains a = true → s.users.contains b = true → a ≠ b →
      (∀ c ∈ s.convs, c.directKey ≠ some (make_direct_key a b)) →
      (∀ p ∈ s.parts, p.conv ≠ s.nextId) →
      ∃ s1, direct s a b = (201, some s.nextId, s1) ∧
        direct s1 b a = (200, some s.nextId, s1) ∧
        (s1.convs.filter (fun c => c.directKey == some (make_direct_key a b))).length = 1 ∧
        (findPart s1 s.nextId a).isSome = true ∧
        (findPart s1 s.nextId b).isSome = true := by
  intro s a b ha hb hab hkey hparts
  have habF : (a == b) = false := beq_eq_false_iff_ne.mpr hab
  have hfind : s.convs.find? (fun c => c.directKey == some (make_direct_key a b)) = none := by
    rw [List.find?_eq_none]
    intro c hc
    simp only [beq_iff_eq]
    exact hkey c hc
  have hfilS : s.parts.filter (fun p => p.conv == s.nextId) = [] := by
    rw [List.filter_eq_nil_iff]
    intro p hp hcontra
    exact hparts p hp (by simpa using hcontra)
  set convRec : Conv := ⟨s.nextId, some (make_direct_key a b), some a, none⟩ with hconv
  set pa : Participant := ⟨s.nextId, a, none, none⟩ with hpa
  set pb : Participant := ⟨s.nextId, b, none, none⟩ with hpb
  set s1 : State :=
    { s with convs := s.convs ++ [convRec], parts := s.parts ++ [pa, pb],
             nextId := s.nextId + 1 } with hs1
  have e1 : direct s a b = (201, some s.nextId,
      addMissingParts { s with convs := s.convs ++ [convRec], nextId := s.nextId + 1 }
        s.nextId a b) :=
    direct_create s a b hb hfind
  have e2 : addMissingParts { s with convs := s.convs ++ [convRec], nextId := s.nextId + 1 }
      s.nextId a b = s1 := by
    rw [addMissingParts_create
      { s with convs := s.convs ++ [convRec], nextId := s.nextId + 1 } s.nextId a b hfilS habF]
  have hfilS1 : s1.parts.filter (fun p => p.conv == s.nextId) = [pa, pb] := by
    show (s.parts ++ [pa, pb]).filter (fun p => p.conv == s.nextId) = [pa, pb]
    rw [List.filter_append, hfilS]
    simp [hpa, hpb]
  have hcontA : a ∈ (s1.parts.filter (fun p => p.conv == s.nextId)).map (fun p => p.user) := by
    rw [hfilS1]
    simp [hpa]
  have hcontB : b ∈ (s1.parts.filter (fun p => p.conv == s.nextId)).map (fun p => p.user) := by
    rw [hfilS1]
    simp [hpb]
  have hfind2 : s1.convs.find? (fun c => c.directKey == some (make_direct_key b a))
      = some convRec := by
    simp only [make_direct_key_comm b a]
    show (s.convs ++ [convRec]).find? (fun c => c.directKey == some (make_direct_key a b))
      = some convRec
    rw [List.find?_append, hfind]
    simp [hconv]
  have e3 : direct s1 b a = (200, some convRec.id, addMissingParts s1 convRec.id b a) :=
    direct_found s1 b a convRec ha hfind2
  have e4 : addMissingParts s1 convRec.id b a = s1 :=
    addMissingParts_present s1 convRec.id b a hcontB hcontA
  refine ⟨s1, ?_, ?_, ?_, ?_, ?_⟩
  · rw [e1, e2]
  · rw [e3, e4]
  · show ((s.convs ++ [convRec]).filter
      (fun c => c.directKey == some (make_direct_key a b))).length = 1
    have hnilc : s.convs.filter (fun c => c.directKey == some (make_direct_key a b)) = [] := by
      rw [List.filter_eq_nil_iff]
      intro c hc hcontra
      exact hkey c hc (by simpa using hcontra)
    rw [List.filter_append, hnilc]
    simp [hconv]
  · show ((s.parts ++ [pa, pb]).find? (fun p => p.conv == s.nextId && p.user == a)).isSome = true
    have hnp : s.parts.find? (fun p => p.conv == s.nextId && p.user == a) = none := by
      rw [List.find?_eq_none]
      intro p hp hcontra
      simp only [Bool.and_eq_true, beq_iff_eq] at hcontra
      exact hparts p hp hcontra.1
    rw [List.find?_append, hnp]
    simp [hpa]
  · show ((s.parts ++ [pa, pb]).find? (fun p => p.conv == s.nextId && p.user == b)).isSome = true
    have hnp : s.parts.find? (fun p => p.conv == s.nextId && p.user == b) = none := by
      rw [List.find?_eq_none]
      intro p hp hcontra
      simp only [Bool.and_eq_true, beq_iff_eq] at hcontra
      exact hparts p hp hcontra.1
    rw [List.find?_append, hnp]
    simp [hpa, hpb, habF]

end Chat

namespace Chat

/-- Witness for C7: in a two-user state, user 5 opens a direct conversation
with user 99 (201, id 3), and the reversed call fetches the same conversation
(200) leaving the state unchanged. -/
theorem C7_direct_idempotent_witness :
    ∃ s1, direct (unreadState 1 5 2 none) 5 99 = (201, some 3, s1) ∧
      direct s1 99 5 = (200, some 3, s1) ∧
      (s1.convs.filter (fun c => c.directKey == some (make_direct_key 5 99))).length = 1 ∧
      (findPart s1 3 5).isSome = true ∧
      (findPart s1 3 99).isSome = true :=
  C7_direct_idempotent_convergent (unreadState 1 5 2 none) 5 99
    (by decide) (by decide) (by decide) (by decide) (by decide)

/-- C10: `POST /conversations/direct` with `peer_id` equal to the caller's own
id is not rejected: it creates (201) a self-conversation keyed by
`make_direct_key(u, u)` holding exactly one participant row (the caller), and
a repeat call fetches it (200) unchanged. -/
theorem C10_direct_self_conversation :
    ∀ (s : State) (u : Nat),
      s.users.contains u = true →
      (∀ c ∈ s.convs, c.directKey ≠ some (make_direct_key u u)) →
      (∀ p ∈ s.parts, p.conv ≠ s.nextId) →
      ∃ s1, direct s u u = (201, some s.nextId, s1) ∧
        direct s1 u u = (200, some s.nextId, s1) ∧
        (s1.parts.filter (fun p => p.conv == s.nextId)).map (fun p => p.user) = [u] := by
  intro s u hu hkey hparts
  have hfind : s.convs.find? (fun c => c.directKey == some (make_direct_key u u)) = none := by
    rw [List.find?_eq_none]
    intro c hc
    simp only [beq_iff_eq]
    exact hkey c hc
  have hfilS : s.parts.filter (fun p => p.conv == s.nextId) = [] := by
    rw [List.filter_eq_nil_iff]
    intro p hp hcontra
    exact hparts p hp (by simpa using hcontra)
  set convRec : Conv := ⟨s.nextId, some (make_direct_key u u), some u, none⟩ with hconv
  set pu : Participant := ⟨s.nextId, u, none, none⟩ with hpu
  set s1 : State :=
    { s with convs := s.convs ++ [convRec], parts := s.parts ++ [pu],
             nextId := s.nextId + 1 } with hs1
  have e1 : direct s u u = (201, some s.nextId,
      addMissingParts { s with convs := s.convs ++ [convRec], nextId := s.nextId + 1 }
        s.nextId u u) :=
    direct_create s u u hu hfind
  have e2 : addMissingParts { s with convs := s.convs ++ [convRec], nextId := s.nextId + 1 }
      s.nextId u u = s1 := by
    rw [addMissingParts_create_self
      { s with convs := s.convs ++ [convRec], nextId := s.nextId + 1 } s.nextId u hfilS]
  have hfilS1 : s1.parts.filter (fun p => p.conv == s.nextId) = [pu] := by
    show (s.parts ++ [pu]).filter (fun p => p.conv == s.nextId) = [pu]
    rw [List.filter_append, hfilS]
    simp [hpu]
  have hcontU : u ∈ (s1.parts.filter (fun p => p.conv == s.nextId)).map (fun p => p.user) := by
    rw [hfilS1]
    simp [hpu]
  have hfind2 : s1.convs.find? (fun c => c.directKey == some (make_direct_key u u))
      = some convRec := by
    show (s.convs ++ [convRec]).find? (fun c => c.directKey == some (make_direct_key u u))
      = some convRec
    rw [List.find?_append, hfind]
    simp [hconv]
  have e3 : direct s1 u u = (200, some convRec.id, addMissingParts s1 convRec.id u u) :=
    direct_found s1 u u convRec hu hfind2
  have e4 : addMissingParts s1 convRec.id u u = s1 :=
    addMissingParts_present s1 convRec.id u u hcontU hcontU
  refine ⟨s1, ?_, ?_, ?_⟩
  · rw [e1, e2]
  · rw [e3, e4]
  · rw [hfilS1]
    simp [hpu]

/-- Witness for C10: user 5 opens a conversation with themself; it is created
with a single participant row and the repeat call fetches it. -/
theorem C10_direct_self_witness :
    ∃ s1, direct (unreadState 1 5 2 none) 5 5 = (201, some 3, s1) ∧
      direct s1 5 5 = (200, some 3, s1) ∧
      (s1.parts.filter (fun p => p.conv == 3)).map (fun p => p.user) = [5] :=
  C10_direct_self_conversation (unreadState 1 5 2 none) 5
    (by decide) (by decide) (by decide)

end Chat
